import Mathlib

/-!
# Verification of the xgboost_ray distributed matrix core

This development shallowly embeds the distributed-matrix subsystem of the
repository (the `RayDMatrix` abstraction: source classification, sharding,
materialization, caching, auxiliary-parameter handling and qid sorting) and
proves the behavioural claims made by the specification.

The repository ships only the test suite (`xgboost_ray/tests/test_matrix.py`)
and an example; the implementation module `xgboost_ray/matrix.py` that the
tests import is not part of the sources.  Definitions below that embed that
missing module are therefore modelled from the specification, with the
concrete behaviours pinned by the in-repository tests taken as authoritative
wherever the two disagree.  Each such definition carries a doc comment
starting with `Modelled from the spec:`.
-/

/-- A feature row: one row of the feature matrix (values as integers). -/
abbrev Row := List Int

/-- Sharding policy for centralized sources, as imported by the tests
(`RayShardingMode.BATCH` is the default used throughout `test_matrix.py`). -/
inductive RayShardingMode where
  | BATCH
  | INTERLEAVED
deriving DecidableEq

/-- Error taxonomy of the planner/materializer (spec section 7):
configuration error, sufficiency error, load error, validation error. -/
inductive MatrixError where
  | configuration
  | sufficiency
  | load
  | validation
deriving DecidableEq

instance [DecidableEq ε] [DecidableEq α] : DecidableEq (Except ε α) := fun a b =>
  match a, b with
  | .error e, .error f =>
    if h : e = f then isTrue (by rw [h]) else isFalse fun hc => h (Except.error.inj hc)
  | .error _, .ok _ => isFalse fun hc => Except.noConfusion hc
  | .ok _, .error _ => isFalse fun hc => Except.noConfusion hc
  | .ok x, .ok y =>
    if h : x = y then isTrue (by rw [h]) else isFalse fun hc => h (Except.ok.inj hc)

/-- Modelled from the spec: the supported source shapes of the Source Adapter
Registry (in-memory array, single-process dataframe, distributed dataframe,
single delimited-text file, single columnar file, a list of files, and an
already-partitioned dataset handle).  Each constructor carries the rows the
physical source holds, pre-split into its partitions where the source arrives
externally partitioned. -/
inductive DataSource where
  | array (rows : List Row)
  | dataframe (rows : List Row)
  | distDataframe (parts : List (List Row))
  | csvFile (rows : List Row)
  | parquetFile (rows : List Row)
  | fileList (parts : List (List Row))
  | rayDataset (parts : List (List Row))
deriving DecidableEq

/-- Partitions of a source: atomic in-memory objects and single files count as
one partition; file lists, distributed dataframes and dataset handles keep
their external partitioning. -/
def DataSource.partitions : DataSource → List (List Row)
  | .array rows => [rows]
  | .dataframe rows => [rows]
  | .distDataframe parts => parts
  | .csvFile rows => [rows]
  | .parquetFile rows => [rows]
  | .fileList parts => parts
  | .rayDataset parts => parts

/-- All rows of a source, partitions concatenated in order. -/
def source_rows (s : DataSource) : List Row := s.partitions.flatten

/-- Number of independently addressable partitions (`partition_count` of the
Source Adapter Registry). -/
def num_partitions (s : DataSource) : Nat := s.partitions.length

/-- Modelled from the spec: mode inference of the Sharding Planner (spec 4.2
step 1) as pinned by `testDetectDistributed` — a single columnar (parquet)
file infers distributed, a single delimited-text (CSV) file infers
centralized, a list of multiple files infers distributed, and an
already-partitioned dataset handle or distributed dataframe is always
distributed. -/
def detect_distributed : DataSource → Bool
  | .array _ => false
  | .dataframe _ => false
  | .distDataframe _ => true
  | .csvFile _ => false
  | .parquetFile _ => true
  | .fileList parts => decide (2 ≤ parts.length)
  | .rayDataset _ => true

/-- Modelled from the spec: `is_distributable` of the Source Adapter Registry —
whether the source type is capable of being split in distributed mode at all.
A single delimited-text file is not; a plain in-memory array or single-process
dataframe is not either (it has a single partition and no splittable row
groups); file lists, columnar files, distributed dataframes and dataset
handles are. -/
def supports_distributed : DataSource → Bool
  | .array _ => false
  | .dataframe _ => false
  | .distDataframe _ => true
  | .csvFile _ => false
  | .parquetFile _ => true
  | .fileList _ => true
  | .rayDataset _ => true

/-- Modelled from the spec: resolution of the `distributed ∈ {auto, true,
false}` configuration option.  An explicit distributed request against a
non-splittable source is a configuration error, never a silent downgrade;
`auto` (`none`) infers the mode from the source. -/
def resolve_distributed (s : DataSource) : Option Bool → Except MatrixError Bool
  | none => .ok (detect_distributed s)
  | some false => .ok false
  | some true =>
    if supports_distributed s then .ok true else .error .configuration

/-- Gather the entries of `xs` at the positions `idx` (NumPy/pandas style
fancy indexing `xs[idx]`, with default `d` out of range). -/
def gatherD (xs : List α) (d : α) (idx : List Nat) : List α :=
  idx.map fun i => xs.getD i d

/-- Modelled from the spec: `_get_sharding_indices` from `xgboost_ray/matrix.py`
(the module is not in the sources; the tests import it directly).  It returns
the row indices belonging to the worker with the given rank.  For `BATCH`
sharding the spec's wording (a slice of size `ceil(n / num_actors)`, last rank
possibly fewer) conflicts with the repository's own test
`testBatchShardingAllActorsGetIndices`, which requires all 16 ranks to receive
a non-empty index list for 100 rows; the sharding is therefore modelled as the
balanced contiguous slicing `[⌊rank·n/k⌋, ⌊(rank+1)·n/k⌋)`, which matches
every concrete behaviour the tests pin (all ranks non-empty whenever
`num_actors ≤ n`, and 32 rows over 2 workers split 16/16).  For `INTERLEAVED`
sharding the indices are `rank, rank + k, rank + 2k, …` below `n`. -/
def _get_sharding_indices (sharding : RayShardingMode) (rank num_actors n : Nat) : List Nat :=
  match sharding with
  | .BATCH =>
    let s := rank * n / num_actors
    let e := (rank + 1) * n / num_actors
    List.range' s (e - s)
  | .INTERLEAVED =>
    List.range' rank ((n - rank + num_actors - 1) / num_actors) num_actors

/-- A second reading of the centralized batch sharding, following the spec's
words literally: "each rank computes a contiguous row slice of size
`ceil(total_rows / worker_count)` (last rank may receive fewer rows)".  Kept
separate so it can be compared with `_get_sharding_indices`. -/
def ceil_slice_indices (rank num_actors n : Nat) : List Nat :=
  let size := (n + num_actors - 1) / num_actors
  List.range' (rank * size) (min size (n - rank * size))

/-- Lengths of the partitions of an externally partitioned source. -/
def partition_sizes (parts : List (List Row)) : List Nat := parts.map List.length

/-- Global row offset at which partition `p` starts inside the concatenated
source. -/
def partition_offset (parts : List (List Row)) (p : Nat) : Nat :=
  ((partition_sizes parts).take p).sum

/-- Global row indices covered by partition `p`. -/
def partition_row_indices (parts : List (List Row)) (p : Nat) : List Nat :=
  List.range' (partition_offset parts p) ((partition_sizes parts).getD p 0)

/-- Modelled from the spec: distributed assignment of the Sharding Planner —
partitions are assigned to ranks round-robin by partition index modulo the
worker count; a rank's rows are the rows of its partitions, partition order
preserved. -/
def distributed_indices (parts : List (List Row)) (rank num_actors : Nat) : List Nat :=
  ((List.range parts.length).filter fun p => p % num_actors == rank).flatMap
    (partition_row_indices parts)

/-- The per-rank materialized payload: the parameter mapping handed to the
boosting routine's native matrix constructor (feature data, label, and the
optional auxiliary arrays). -/
structure RayParams where
  data : List Row
  label : List Int
  weight : Option (List Int)
  base_margin : Option (List Int)
  qid : Option (List Int)
  label_lower_bound : Option (List Int)
  label_upper_bound : Option (List Int)
  feature_weights : Option (List Int)
deriving DecidableEq

/-- Modelled from the spec: the Logical Matrix — a deferred, declarative
description of the dataset: the source, the label (kept row-aligned with the
source rows), the sharding policy, the resolved centralized/distributed mode,
and the optional auxiliary arrays. -/
structure RayDMatrix where
  source : DataSource
  label : List Int
  sharding : RayShardingMode
  distributed : Bool
  weight : Option (List Int)
  base_margin : Option (List Int)
  qid : Option (List Int)
  label_lower_bound : Option (List Int)
  label_upper_bound : Option (List Int)
  feature_weights : Option (List Int)
deriving DecidableEq

/-- Total number of rows of the matrix's source. -/
def RayDMatrix.num_rows (m : RayDMatrix) : Nat := (source_rows m.source).length

/-- Whether an optional auxiliary array, when present, has the given length. -/
def opt_len_ok (o : Option (List Int)) (n : Nat) : Bool :=
  match o with
  | none => true
  | some l => l.length == n

/-- Modelled from the spec: the row-alignment check of the Consistency &
Validation layer — the label and every supplied row-level auxiliary array
(sample weight, base margin, qid, label bounds) must be row-count-aligned
with the feature matrix.  Per-feature weights are column-aligned instead and
are not part of this check. -/
def RayDMatrix.aux_aligned (m : RayDMatrix) : Bool :=
  m.label.length == m.num_rows &&
  opt_len_ok m.weight m.num_rows &&
  opt_len_ok m.base_margin m.num_rows &&
  opt_len_ok m.qid m.num_rows &&
  opt_len_ok m.label_lower_bound m.num_rows &&
  opt_len_ok m.label_upper_bound m.num_rows

/-- Row indices assigned to `rank` out of `num_actors` workers: round-robin
partitions in distributed mode, `_get_sharding_indices` slicing of the full
row range in centralized mode. -/
def RayDMatrix.shard_indices (m : RayDMatrix) (rank num_actors : Nat) : List Nat :=
  if m.distributed then
    distributed_indices m.source.partitions rank num_actors
  else
    _get_sharding_indices m.sharding rank num_actors m.num_rows

/-- Whether a qid column is already sorted into non-decreasing contiguous
runs (the form accepted by the boosting routine). -/
def qid_sorted : List Int → Bool
  | [] => true
  | [_] => true
  | a :: b :: rest => decide (a ≤ b) && qid_sorted (b :: rest)

/-- Stable comparison key used to sort row positions by qid value: position
`i` comes before `j` when its qid value is smaller, or when the values are
equal and `i ≤ j` (stability). -/
def qid_key_le (q : List Int) (i j : Nat) : Prop :=
  q.getD i 0 < q.getD j 0 ∨ (q.getD i 0 = q.getD j 0 ∧ i ≤ j)

instance (q : List Int) : DecidableRel (qid_key_le q) := fun i j => by
  unfold qid_key_le
  exact inferInstance

instance (q : List Int) : IsTotal Nat (qid_key_le q) := by
  constructor
  intro i j
  unfold qid_key_le
  rcases lt_trichotomy (q.getD i 0) (q.getD j 0) with h | h | h
  · exact Or.inl (Or.inl h)
  · rcases Nat.le_total i j with hij | hij
    · exact Or.inl (Or.inr ⟨h, hij⟩)
    · exact Or.inr (Or.inr ⟨h.symm, hij⟩)
  · exact Or.inr (Or.inl h)

instance (q : List Int) : IsTrans Nat (qid_key_le q) := by
  constructor
  intro a b c hab hbc
  unfold qid_key_le at *
  rcases hab with h1 | ⟨h1, h1'⟩ <;> rcases hbc with h2 | ⟨h2, h2'⟩
  · exact Or.inl (h1.trans h2)
  · exact Or.inl (h2 ▸ h1)
  · exact Or.inl (h1 ▸ h2)
  · exact Or.inr ⟨h1.trans h2, h1'.trans h2'⟩

/-- The stable sorting permutation for a qid column: the row positions
`0, …, n-1` sorted by qid value, ties keeping the original order. -/
def qid_sort_perm (q : List Int) : List Nat :=
  List.insertionSort (qid_key_le q) (List.range q.length)

/-- Modelled from the spec: group/query identifier correction of the
Materializer — if a qid is supplied and is not already sorted into contiguous
runs, the entire payload (features, labels and all row-aligned auxiliary
arrays) is reordered by one stable sort keyed on the qid; per-feature weights
are column-aligned and are left untouched. -/
def sort_params_by_qid (p : RayParams) : RayParams :=
  match p.qid with
  | none => p
  | some q =>
    if qid_sorted q then p
    else
      let perm := qid_sort_perm q
      { data := gatherD p.data [] perm
        label := gatherD p.label 0 perm
        weight := p.weight.map fun w => gatherD w 0 perm
        base_margin := p.base_margin.map fun w => gatherD w 0 perm
        qid := some (gatherD q 0 perm)
        label_lower_bound := p.label_lower_bound.map fun w => gatherD w 0 perm
        label_upper_bound := p.label_upper_bound.map fun w => gatherD w 0 perm
        feature_weights := p.feature_weights }

/-- The raw (pre-qid-correction) payload for one rank: every row-aligned
array gathered at the rank's shard indices; per-feature weights passed
through whole. -/
def RayDMatrix.shard_payload (m : RayDMatrix) (rank num_actors : Nat) : RayParams :=
  let idx := m.shard_indices rank num_actors
  { data := gatherD (source_rows m.source) [] idx
    label := gatherD m.label 0 idx
    weight := m.weight.map fun w => gatherD w 0 idx
    base_margin := m.base_margin.map fun w => gatherD w 0 idx
    qid := m.qid.map fun w => gatherD w 0 idx
    label_lower_bound := m.label_lower_bound.map fun w => gatherD w 0 idx
    label_upper_bound := m.label_upper_bound.map fun w => gatherD w 0 idx
    feature_weights := m.feature_weights }

/-- The materialized payload for one rank: the rank's shard, qid-corrected. -/
def RayDMatrix.materialize (m : RayDMatrix) (rank num_actors : Nat) : RayParams :=
  sort_params_by_qid (m.shard_payload rank num_actors)

/-- Modelled from the spec: `RayDMatrix.get_data(rank, num_actors)` — the
materialization entry point.  A row-count mismatch between the label or an
auxiliary array and the features surfaces as a load error; otherwise the
rank's payload is produced. -/
def RayDMatrix.get_data (m : RayDMatrix) (rank num_actors : Nat) :
    Except MatrixError RayParams :=
  if m.aux_aligned then .ok (m.materialize rank num_actors) else .error .load

/-- Modelled from the spec: `assert_enough_shards_for_actors` — the
sufficiency check for distributed sources: the number of usable partitions
must be at least the requested worker count, otherwise a sufficiency error is
raised before any load is attempted. -/
def RayDMatrix.assert_enough_shards_for_actors (m : RayDMatrix) (num_actors : Nat) :
    Except MatrixError Unit :=
  if m.distributed && decide (num_partitions m.source < num_actors) then
    .error .sufficiency
  else
    .ok ()

/-- Plan-then-load for every rank: the sufficiency check runs first, so an
insufficient source yields the error and zero (partial) loads. -/
def RayDMatrix.load_all (m : RayDMatrix) (num_actors : Nat) :
    Except MatrixError (List RayParams) :=
  match m.assert_enough_shards_for_actors num_actors with
  | .error e => .error e
  | .ok _ => (List.range num_actors).mapM fun r => m.get_data r num_actors

/-- Whether a centralized source falls short of the requested worker count:
the row count must be at least `num_actors` when one was requested. -/
def central_shortfall (rows : Nat) : Option Nat → Bool
  | none => false
  | some k => decide (rows < k)

/-- Modelled from the spec: the `RayDMatrix` constructor — resolves the
distributed/centralized mode (an explicit distributed request on a
non-splittable source is a configuration error) and, for a non-lazy
centralized source with a requested worker count, performs the row-count
sufficiency check at planning time. -/
def RayDMatrix.create (source : DataSource) (label : List Int)
    (sharding : RayShardingMode) (distributed : Option Bool)
    (num_actors : Option Nat) (lazy : Bool)
    (weight base_margin qid label_lower_bound label_upper_bound
      feature_weights : Option (List Int)) :
    Except MatrixError RayDMatrix :=
  match resolve_distributed source distributed with
  | .error e => .error e
  | .ok dist =>
    if !dist && !lazy && central_shortfall (source_rows source).length num_actors then
      .error .sufficiency
    else
      .ok ⟨source, label, sharding, dist, weight, base_margin, qid,
        label_lower_bound, label_upper_bound, feature_weights⟩

/-- The per-rank payload cache of the Materializer, keyed by rank. -/
abbrev DataCache := List (Nat × RayParams)

/-- Modelled from the spec: the Materializer's lazy loading — a cache hit for
the rank returns the cached payload unchanged; a miss loads via `get_data`
and caches the result under the rank. -/
def RayDMatrix.get_data_cached (m : RayDMatrix) (cache : DataCache)
    (rank num_actors : Nat) : Except MatrixError (RayParams × DataCache) :=
  match cache.lookup rank with
  | some p => .ok (p, cache)
  | none =>
    match m.get_data rank num_actors with
    | .error e => .error e
    | .ok p => .ok (p, (rank, p) :: cache)

/-- Modelled from the spec: `unload_data` — releases every cached payload;
the next access reloads from source. -/
def unload_data (_cache : DataCache) : DataCache := []

/-- The access pattern of `_testMatrixCreation`: visit the given ranks in
order, unloading the cache before each access, collecting the payloads. -/
def load_ranks_with_unloads (m : RayDMatrix) (num_actors : Nat) :
    List Nat → DataCache → Except MatrixError (List RayParams)
  | [], _ => .ok []
  | r :: rest, cache =>
    match m.get_data_cached (unload_data cache) r num_actors with
    | .error e => .error e
    | .ok (p, cache') =>
      match load_ranks_with_unloads m num_actors rest cache' with
      | .error e => .error e
      | .ok ps => .ok (p :: ps)

/-- Concatenation of payload chunks (`concat_dataframes` from
`xgboost_ray.matrix`, as imported by the tests). -/
def concat_dataframes (dfs : List (List α)) : List α := dfs.flatten

/-- Modelled from the spec: the acceptance condition of the boosting
routine's native matrix constructor on the group identifier — a supplied qid
must be sorted into contiguous non-decreasing runs, otherwise the constructor
rejects the input. -/
def dmatrix_accepts (p : RayParams) : Bool :=
  match p.qid with
  | none => true
  | some q => qid_sorted q

/-- A named dataframe: columns in order, each with a name and its values. -/
structure DataFrame where
  cols : List (String × List Int)
deriving DecidableEq

/-- Column names of a dataframe, in order. -/
def DataFrame.columns (df : DataFrame) : List String := df.cols.map Prod.fst

/-- Modelled from the spec: column exclusion of the Consistency & Validation
layer — dropping the label/auxiliary columns from a dataframe keeps the
remaining columns in their original relative order. -/
def DataFrame.exclude_cols (df : DataFrame) (excluded : List String) : DataFrame :=
  ⟨df.cols.filter fun c => !(excluded.contains c.1)⟩

/-- The values of the named column (empty when the column is missing). -/
def DataFrame.get_col (df : DataFrame) (name : String) : List Int :=
  ((df.cols.find? fun c => c.1 == name).map Prod.snd).getD []

/-- Modelled from the spec: label extraction from a dataframe source — the
label column is extracted and removed from the feature set, the remaining
feature columns keeping their original order. -/
def _split_dataframe (df : DataFrame) (label : String) : DataFrame × List Int :=
  (df.exclude_cols [label], df.get_col label)

/-! ## Helper lemmas about gathering and sharding -/

theorem gatherD_range' (xs : List α) (d : α) :
    ∀ (c s : Nat), s + c ≤ xs.length →
      gatherD xs d (List.range' s c) = (xs.drop s).take c := by
  intro c
  induction c with
  | zero => intro s _; simp [gatherD]
  | succ c ih =>
    intro s hs
    have hslt : s < xs.length := by omega
    rw [List.range'_succ]
    have htail := ih (s + 1) (by omega)
    simp only [gatherD, List.map_cons] at htail ⊢
    rw [htail, List.getD_eq_getElem xs d hslt, List.drop_eq_getElem_cons hslt,
      List.take_succ_cons]

theorem gatherD_range (xs : List α) (d : α) :
    gatherD xs d (List.range xs.length) = xs := by
  rw [List.range_eq_range', gatherD_range' xs d xs.length 0 (by omega)]
  simp

theorem gatherD_length (xs : List α) (d : α) (idx : List Nat) :
    (gatherD xs d idx).length = idx.length := by
  simp [gatherD]

theorem gatherD_flatten (xs : List α) (d : α) (idxs : List (List Nat)) :
    gatherD xs d idxs.flatten = (idxs.map (gatherD xs d)).flatten := by
  unfold gatherD
  rw [List.map_flatten]

theorem gatherD_perm (xs : List α) (d : α) {idx : List Nat}
    (h : idx.Perm (List.range xs.length)) : (gatherD xs d idx).Perm xs := by
  have := h.map fun i => xs.getD i d
  rw [show List.map (fun i => xs.getD i d) (List.range xs.length)
      = gatherD xs d (List.range xs.length) from rfl, gatherD_range] at this
  exact this

theorem batch_boundary_mono (n k : Nat) {r r' : Nat} (h : r ≤ r') :
    r * n / k ≤ r' * n / k :=
  Nat.div_le_div_right (Nat.mul_le_mul_right n h)

theorem batch_indices_flatten_aux (n k : Nat) :
    ∀ j, ((List.range j).map fun r => _get_sharding_indices .BATCH r k n).flatten
      = List.range' 0 (j * n / k) := by
  intro j
  induction j with
  | zero => simp
  | succ j ih =>
    rw [List.range_succ, List.map_append, List.flatten_append, ih]
    have hm : j * n / k ≤ (j + 1) * n / k := batch_boundary_mono n k (by omega)
    simp only [_get_sharding_indices, List.map_cons, List.map_nil, List.flatten_cons,
      List.flatten_nil, List.append_nil]
    have := List.range'_append 0 (j * n / k) ((j + 1) * n / k - j * n / k) 1
    simp only [Nat.one_mul, Nat.zero_add] at this
    rw [this]
    congr 1
    omega

theorem batch_indices_flatten (n k : Nat) (hk : 0 < k) :
    ((List.range k).map fun r => _get_sharding_indices .BATCH r k n).flatten
      = List.range n := by
  rw [batch_indices_flatten_aux n k k, Nat.mul_comm k n,
    Nat.mul_div_cancel n hk, List.range_eq_range']

theorem batch_concat (xs : List α) (d : α) (k : Nat) (hk : 0 < k) :
    ((List.range k).map fun r =>
        gatherD xs d (_get_sharding_indices .BATCH r k xs.length)).flatten = xs := by
  have h1 : ((List.range k).map fun r =>
      gatherD xs d (_get_sharding_indices .BATCH r k xs.length)).flatten
      = gatherD xs d ((List.range k).map fun r =>
          _get_sharding_indices .BATCH r k xs.length).flatten := by
    rw [gatherD_flatten, List.map_map]
    rfl
  rw [h1, batch_indices_flatten xs.length k hk, gatherD_range]

theorem batch_indices_length (n k r : Nat) (hk : 0 < k) :
    n / k ≤ (_get_sharding_indices .BATCH r k n).length ∧
      (_get_sharding_indices .BATCH r k n).length ≤ n / k + 1 := by
  simp only [_get_sharding_indices, List.length_range']
  have hrem : r * n % k < k := Nat.mod_lt _ hk
  have h1 : (r + 1) * n = k * (r * n / k) + (r * n % k + n) := by
    calc (r + 1) * n = r * n + n := by ring
      _ = k * (r * n / k) + r * n % k + n := by rw [Nat.div_add_mod]
      _ = k * (r * n / k) + (r * n % k + n) := by rw [Nat.add_assoc]
  have h2 : (r + 1) * n / k = r * n / k + (r * n % k + n) / k := by
    rw [h1, Nat.mul_add_div hk]
  have hlow : n / k ≤ (r * n % k + n) / k := Nat.div_le_div_right (by omega)
  have hup : (r * n % k + n) / k ≤ (n + k) / k := Nat.div_le_div_right (by omega)
  have hnk : (n + k) / k = n / k + 1 := Nat.add_div_right n hk
  have key : ∀ A B C D E : Nat, A = B + C → D ≤ C → C ≤ E → E = D + 1 →
      D ≤ A - B ∧ A - B ≤ D + 1 := by
    intro A B C D E k1 k2 k3 k4
    omega
  exact key _ _ _ _ _ h2 hlow hup hnk

theorem batch_indices_nonempty (n k r : Nat) (hk : 0 < k) (hkn : k ≤ n) :
    _get_sharding_indices .BATCH r k n ≠ [] := by
  simp only [_get_sharding_indices, ne_eq, List.range'_eq_nil]
  have h1 : (r * n + k) / k = r * n / k + 1 := Nat.add_div_right _ hk
  have h2 : (r * n + k) / k ≤ (r + 1) * n / k := by
    apply Nat.div_le_div_right
    have : (r + 1) * n = r * n + n := by ring
    omega
  omega

/-! ## Helper lemmas about the round-robin distributed assignment -/

theorem count_flatMap_add [DecidableEq β] (a : β) (l : List α) (f g : α → List β) :
    ((l.flatMap fun x => f x ++ g x).count a)
      = (l.flatMap f).count a + (l.flatMap g).count a := by
  induction l with
  | nil => simp
  | cons x xs ih =>
    simp only [List.flatMap_cons, List.count_append, ih]
    omega

theorem flatMap_ite_nil (xs : List β) (c : Nat) :
    ∀ cnt s, c < s →
      ((List.range' s cnt).flatMap fun r => if (c == r) = true then xs else []) = [] := by
  intro cnt
  induction cnt with
  | zero => intro s _; simp
  | succ cnt ih =>
    intro s hs
    rw [List.range'_succ, List.flatMap_cons, if_neg (by simp; omega), List.nil_append]
    exact ih (s + 1) (by omega)

theorem flatMap_ite_single (xs : List β) (c : Nat) :
    ∀ cnt s, s ≤ c → c < s + cnt →
      ((List.range' s cnt).flatMap fun r => if (c == r) = true then xs else []) = xs := by
  intro cnt
  induction cnt with
  | zero => intro s h1 h2; omega
  | succ cnt ih =>
    intro s h1 h2
    rw [List.range'_succ, List.flatMap_cons]
    by_cases hcs : c = s
    · subst hcs
      rw [if_pos (by simp), flatMap_ite_nil xs c cnt (c + 1) (by omega), List.append_nil]
    · rw [if_neg (by simp [hcs]), List.nil_append]
      exact ih (s + 1) (by omega) (by omega)

theorem flatMap_ite_single_range (xs : List β) (c N : Nat) (h : c < N) :
    ((List.range N).flatMap fun r => if (c == r) = true then xs else []) = xs := by
  rw [List.range_eq_range']
  exact flatMap_ite_single xs c N 0 (by omega) (by omega)

theorem residue_buckets_count (N : Nat) (hN : 0 < N) (a : Nat) :
    ∀ P, (((List.range N).flatMap fun r =>
        (List.range P).filter fun p => p % N == r).count a)
      = (List.range P).count a := by
  intro P
  induction P with
  | zero =>
    simp only [List.range_zero, List.filter_nil]
    have h0 : ((List.range N).flatMap fun _ : Nat => ([] : List Nat)) = [] :=
      List.flatMap_eq_nil_iff.mpr fun _ _ => rfl
    rw [h0]
  | succ P ih =>
    have hfun : (fun r => (List.range (P + 1)).filter fun p => p % N == r)
        = fun r => ((List.range P).filter fun p => p % N == r)
            ++ (if (P % N == r) = true then [P] else []) := by
      funext r
      rw [List.range_succ, List.filter_append, List.filter_cons, List.filter_nil]
    rw [hfun, count_flatMap_add, ih,
      flatMap_ite_single_range [P] (P % N) N (Nat.mod_lt P hN),
      List.range_succ, List.count_append]

theorem residue_buckets_perm (N P : Nat) (hN : 0 < N) :
    ((List.range N).flatMap fun r =>
      (List.range P).filter fun p => p % N == r).Perm (List.range P) :=
  List.perm_iff_count.mpr fun a => residue_buckets_count N hN a P

theorem partition_indices_flatMap_aux :
    ∀ (parts : List (List Row)) (off : Nat),
      ((List.range parts.length).flatMap fun p =>
        List.range' (off + partition_offset parts p) ((partition_sizes parts).getD p 0))
      = List.range' off parts.flatten.length := by
  intro parts
  induction parts with
  | nil => intro off; simp
  | cons part rest ih =>
    intro off
    rw [List.length_cons, List.range_succ_eq_map, List.flatMap_cons, List.flatMap_map]
    have hoff0 : partition_offset (part :: rest) 0 = 0 := by
      simp [partition_offset]
    have hsz0 : (partition_sizes (part :: rest)).getD 0 0 = part.length := by
      simp [partition_sizes]
    have hoffS : ∀ p, partition_offset (part :: rest) (p + 1)
        = part.length + partition_offset rest p := by
      intro p
      simp [partition_offset, partition_sizes, List.take_succ_cons]
    have hszS : ∀ p, (partition_sizes (part :: rest)).getD (p + 1) 0
        = (partition_sizes rest).getD p 0 := by
      intro p
      simp [partition_sizes]
    simp only [hoff0, hsz0, hoffS, hszS, Nat.add_zero, Nat.succ_eq_add_one]
    have harg : ∀ p, off + (part.length + partition_offset rest p)
        = (off + part.length) + partition_offset rest p := by
      intro p
      omega
    simp only [harg]
    rw [ih (off + part.length)]
    have happ := List.range'_append off part.length rest.flatten.length 1
    simp only [Nat.one_mul] at happ
    rw [happ]
    congr 1
    simp [List.flatten_cons]
    omega

theorem partition_indices_flatMap (parts : List (List Row)) :
    ((List.range parts.length).flatMap (partition_row_indices parts))
      = List.range parts.flatten.length := by
  unfold partition_row_indices
  have h := partition_indices_flatMap_aux parts 0
  simp only [Nat.zero_add] at h
  rw [List.range_eq_range' parts.flatten.length, ← h]

theorem distributed_indices_concat_perm (parts : List (List Row)) (N : Nat) (hN : 0 < N) :
    (((List.range N).map fun r => distributed_indices parts r N).flatten).Perm
      (List.range parts.flatten.length) := by
  rw [← List.flatMap_def]
  unfold distributed_indices
  rw [← List.flatMap_assoc]
  have h1 := List.Perm.flatMap_right (partition_row_indices parts)
    (residue_buckets_perm N parts.length hN)
  rw [partition_indices_flatMap parts] at h1
  exact h1

theorem distributed_indices_one (parts : List (List Row)) :
    distributed_indices parts 0 1 = List.range parts.flatten.length := by
  unfold distributed_indices
  have hf : ((List.range parts.length).filter fun p => p % 1 == 0)
      = List.range parts.length := by
    apply List.filter_eq_self.mpr
    intro a _
    simp [Nat.mod_one]
  rw [hf, partition_indices_flatMap]

theorem filter_beq_range (N r : Nat) (h : r < N) :
    ((List.range N).filter fun p => p == r) = [r] := by
  induction N with
  | zero => omega
  | succ N ih =>
    rw [List.range_succ, List.filter_append, List.filter_cons, List.filter_nil]
    by_cases hr : r = N
    · subst hr
      have h0 : (List.range r).filter (fun p => p == r) = [] := by
        rw [List.filter_eq_nil_iff]
        intro a ha
        have : a < r := List.mem_range.mp ha
        simp
        omega
      rw [h0, if_pos (by simp)]
      simp
    · have hrN : r < N := by omega
      rw [ih hrN, if_neg (by simp; omega)]
      simp

theorem filter_mod_range (N r : Nat) (h : r < N) :
    ((List.range N).filter fun p => p % N == r) = [r] := by
  have hcongr : ∀ x ∈ List.range N, (x % N == r) = (x == r) := by
    intro x hx
    have hxN : x < N := List.mem_range.mp hx
    rw [Nat.mod_eq_of_lt hxN]
  rw [List.filter_congr hcongr, filter_beq_range N r h]

theorem distributed_indices_eq_partition (parts : List (List Row)) (r : Nat)
    (h : r < parts.length) :
    distributed_indices parts r parts.length = partition_row_indices parts r := by
  unfold distributed_indices
  rw [filter_mod_range parts.length r h]
  simp

/-! ## Helper lemmas about qid sorting -/

theorem qid_sorted_iff_chain :
    ∀ q : List Int, qid_sorted q = true ↔ q.Chain' fun a b => a ≤ b := by
  intro q
  induction q with
  | nil => simp [qid_sorted]
  | cons a t ih =>
    cases t with
    | nil => simp [qid_sorted]
    | cons b r =>
      rw [List.chain'_cons, ← ih]
      simp [qid_sorted]

theorem qid_sort_perm_perm (q : List Int) :
    (qid_sort_perm q).Perm (List.range q.length) :=
  List.perm_insertionSort _ _

theorem qid_sort_perm_pairwise (q : List Int) :
    (qid_sort_perm q).Pairwise (qid_key_le q) :=
  List.sorted_insertionSort _ _

theorem qid_sorted_gather (q : List Int) (σ : List Nat)
    (h : σ.Pairwise (qid_key_le q)) : qid_sorted (gatherD q 0 σ) = true := by
  rw [qid_sorted_iff_chain]
  unfold gatherD
  rw [List.chain'_map]
  apply List.Pairwise.chain'
  apply h.imp
  intro a b hab
  rcases hab with h1 | ⟨h1, _⟩
  · exact le_of_lt h1
  · exact le_of_eq h1

theorem sort_params_by_qid_none (p : RayParams) (h : p.qid = none) :
    sort_params_by_qid p = p := by
  unfold sort_params_by_qid
  rw [h]

/-! ## Helper lemmas at the matrix level -/

theorem gatherD_map_flatten (xs : List α) (d : α) (f : Nat → List Nat) (l : List Nat) :
    ((l.map fun r => gatherD xs d (f r)).flatten) = gatherD xs d (l.map f).flatten := by
  rw [gatherD_flatten, List.map_map]
  rfl

theorem batch_concat_aligned (xs : List α) (d : α) (k n : Nat) (hk : 0 < k)
    (hlen : xs.length = n) :
    ((List.range k).map fun r =>
      gatherD xs d (_get_sharding_indices .BATCH r k n)).flatten = xs := by
  subst hlen
  exact batch_concat xs d k hk

theorem distributed_concat_perm_aligned (xs : List α) (d : α) (parts : List (List Row))
    (N : Nat) (hN : 0 < N) (hlen : xs.length = parts.flatten.length) :
    (((List.range N).map fun r =>
      gatherD xs d (distributed_indices parts r N)).flatten).Perm xs := by
  rw [gatherD_map_flatten]
  apply gatherD_perm
  rw [hlen]
  exact distributed_indices_concat_perm parts N hN

theorem distributed_concat_exact (xs : List α) (d : α) (parts : List (List Row))
    (hlen : xs.length = parts.flatten.length) :
    ((List.range parts.length).map fun r =>
        gatherD xs d (distributed_indices parts r parts.length)).flatten = xs := by
  have hmap : (List.range parts.length).map
        (fun r => gatherD xs d (distributed_indices parts r parts.length))
      = (List.range parts.length).map
        (fun r => gatherD xs d (partition_row_indices parts r)) := by
    apply List.map_congr_left
    intro r hr
    rw [distributed_indices_eq_partition parts r (List.mem_range.mp hr)]
  rw [hmap, gatherD_map_flatten, ← List.flatMap_def, partition_indices_flatMap, ← hlen,
    gatherD_range]

theorem batch_indices_one (n : Nat) (sh : RayShardingMode) :
    _get_sharding_indices sh 0 1 n = List.range n := by
  cases sh
  · simp [_get_sharding_indices, Nat.div_one, List.range_eq_range']
  · simp [_get_sharding_indices, Nat.div_one, List.range_eq_range']

theorem shard_indices_one (m : RayDMatrix) :
    m.shard_indices 0 1 = List.range m.num_rows := by
  unfold RayDMatrix.shard_indices
  by_cases h : m.distributed = true
  · rw [if_pos h]
    exact distributed_indices_one m.source.partitions
  · rw [if_neg h]
    exact batch_indices_one m.num_rows m.sharding

theorem materialize_no_qid (m : RayDMatrix) (h : m.qid = none) (rank N : Nat) :
    m.materialize rank N = m.shard_payload rank N := by
  unfold RayDMatrix.materialize
  apply sort_params_by_qid_none
  simp [RayDMatrix.shard_payload, h]

theorem shard_payload_data (m : RayDMatrix) (r N : Nat) :
    (m.shard_payload r N).data = gatherD (source_rows m.source) [] (m.shard_indices r N) :=
  rfl

theorem shard_payload_label (m : RayDMatrix) (r N : Nat) :
    (m.shard_payload r N).label = gatherD m.label 0 (m.shard_indices r N) :=
  rfl

theorem shard_indices_central (m : RayDMatrix) (hd : m.distributed = false) (r N : Nat) :
    m.shard_indices r N = _get_sharding_indices m.sharding r N m.num_rows := by
  unfold RayDMatrix.shard_indices
  rw [hd]
  simp

theorem shard_indices_dist (m : RayDMatrix) (hd : m.distributed = true) (r N : Nat) :
    m.shard_indices r N = distributed_indices m.source.partitions r N := by
  unfold RayDMatrix.shard_indices
  rw [hd]
  simp

theorem aux_aligned_label (m : RayDMatrix) (h : m.aux_aligned = true) :
    m.label.length = m.num_rows := by
  unfold RayDMatrix.aux_aligned at h
  simp only [Bool.and_eq_true, beq_iff_eq] at h
  exact h.1.1.1.1.1

theorem materialize_data_concat_central (m : RayDMatrix) (hq : m.qid = none)
    (hd : m.distributed = false) (hs : m.sharding = RayShardingMode.BATCH)
    (N : Nat) (hN : 0 < N) :
    concat_dataframes ((List.range N).map fun r => (m.materialize r N).data)
      = source_rows m.source := by
  unfold concat_dataframes
  simp only [materialize_no_qid m hq, shard_payload_data, shard_indices_central m hd, hs]
  exact batch_concat_aligned (source_rows m.source) [] N m.num_rows hN rfl

theorem materialize_label_concat_central (m : RayDMatrix) (hq : m.qid = none)
    (hlab : m.label.length = m.num_rows)
    (hd : m.distributed = false) (hs : m.sharding = RayShardingMode.BATCH)
    (N : Nat) (hN : 0 < N) :
    concat_dataframes ((List.range N).map fun r => (m.materialize r N).label)
      = m.label := by
  unfold concat_dataframes
  simp only [materialize_no_qid m hq, shard_payload_label, shard_indices_central m hd, hs]
  exact batch_concat_aligned m.label 0 N m.num_rows hN hlab

theorem materialize_data_concat_dist_perm (m : RayDMatrix) (hq : m.qid = none)
    (hd : m.distributed = true) (N : Nat) (hN : 0 < N) :
    (concat_dataframes ((List.range N).map fun r => (m.materialize r N).data)).Perm
      (source_rows m.source) := by
  unfold concat_dataframes
  simp only [materialize_no_qid m hq, shard_payload_data, shard_indices_dist m hd]
  exact distributed_concat_perm_aligned (source_rows m.source) [] m.source.partitions N hN rfl

theorem materialize_label_concat_dist_perm (m : RayDMatrix) (hq : m.qid = none)
    (hlab : m.label.length = m.num_rows)
    (hd : m.distributed = true) (N : Nat) (hN : 0 < N) :
    (concat_dataframes ((List.range N).map fun r => (m.materialize r N).label)).Perm
      m.label := by
  unfold concat_dataframes
  simp only [materialize_no_qid m hq, shard_payload_label, shard_indices_dist m hd]
  exact distributed_concat_perm_aligned m.label 0 m.source.partitions N hN hlab

theorem materialize_data_concat_dist_exact (m : RayDMatrix) (hq : m.qid = none)
    (hd : m.distributed = true) :
    concat_dataframes ((List.range (num_partitions m.source)).map fun r =>
      (m.materialize r (num_partitions m.source)).data) = source_rows m.source := by
  unfold concat_dataframes
  simp only [materialize_no_qid m hq, shard_payload_data, shard_indices_dist m hd]
  exact distributed_concat_exact (source_rows m.source) [] m.source.partitions rfl

theorem materialize_label_concat_dist_exact (m : RayDMatrix) (hq : m.qid = none)
    (hlab : m.label.length = m.num_rows) (hd : m.distributed = true) :
    concat_dataframes ((List.range (num_partitions m.source)).map fun r =>
      (m.materialize r (num_partitions m.source)).label) = m.label := by
  unfold concat_dataframes
  simp only [materialize_no_qid m hq, shard_payload_label, shard_indices_dist m hd]
  exact distributed_concat_exact m.label 0 m.source.partitions hlab

theorem materialize_one_data (m : RayDMatrix) (hq : m.qid = none) :
    (m.materialize 0 1).data = source_rows m.source := by
  rw [materialize_no_qid m hq, shard_payload_data, shard_indices_one]
  exact gatherD_range (source_rows m.source) []

theorem materialize_one_label (m : RayDMatrix) (hq : m.qid = none)
    (hlab : m.label.length = m.num_rows) :
    (m.materialize 0 1).label = m.label := by
  rw [materialize_no_qid m hq, shard_payload_label, shard_indices_one, ← hlab]
  exact gatherD_range m.label 0

/-! ## Claim C2: centralized batch sharding -/

/-- Claim C2, counterexample.  The claim asserts that each rank's batch slice
has size `ceil(total_rows / worker_count)` with only the last rank possibly
receiving fewer.  On 100 rows and 16 workers the sharding gives rank 0 (not a
last rank) a slice of length 6, not `ceil(100/16) = 7`; and the literal
ceil-slice reading would give rank 15 an empty slice, contradicting the
claim's own consequence (and the repository test) that all 16 ranks receive a
non-empty index set. -/
theorem c2_counterexample :
    (_get_sharding_indices .BATCH 0 16 100).length = 6 ∧
    (100 + 16 - 1) / 16 = 7 ∧
    ceil_slice_indices 15 16 100 = [] ∧
    _get_sharding_indices .BATCH 15 16 100 ≠ [] := by
  refine ⟨by decide, by decide, by decide, by decide⟩

/-- The amended claim C2, as one proposition over the row count `n` and the
worker count `k`: every rank's assignment is a contiguous slice, of size
`⌊n/k⌋` or `⌊n/k⌋ + 1`, the slices of ranks `0..k-1` concatenated in rank
order cover exactly the row indices `0..n-1` in order, every rank receives a
non-empty slice whenever `k ≤ n`, and in particular all 16 ranks are
non-empty for 100 rows, and 32 rows over 2 workers split into the first and
the last 16 rows. -/
def C2Body (n k : Nat) : Prop :=
  (∀ r, ∃ s c, _get_sharding_indices .BATCH r k n = List.range' s c) ∧
  (∀ r, n / k ≤ (_get_sharding_indices .BATCH r k n).length ∧
    (_get_sharding_indices .BATCH r k n).length ≤ n / k + 1) ∧
  ((List.range k).map fun r => _get_sharding_indices .BATCH r k n).flatten
    = List.range n ∧
  (k ≤ n → ∀ r, r < k → _get_sharding_indices .BATCH r k n ≠ []) ∧
  (∀ r, r < 16 → _get_sharding_indices .BATCH r 16 100 ≠ []) ∧
  _get_sharding_indices .BATCH 0 2 32 = List.range' 0 16 ∧
  _get_sharding_indices .BATCH 1 2 32 = List.range' 16 16

/-- Claim C2 (amended): in centralized/batch sharding each rank's assignment
is a contiguous row slice `[⌊rank·n/k⌋, ⌊(rank+1)·n/k⌋)` of size `⌊n/k⌋` or
`⌊n/k⌋ + 1`, computed purely from `(total_rows, worker_count, rank)`; the
rank-ordered slices tile the row range exactly; for 100 rows and 16 workers
every rank receives a non-empty index set; and for 32 rows and 2 workers
rank 0 receives exactly the first 16 rows and rank 1 the remaining 16. -/
theorem c2_batch_sharding_balanced (n k : Nat) (hk : 0 < k) : C2Body n k := by
  refine ⟨?_, ?_, ?_, ?_, ?_, ?_, ?_⟩
  · intro r
    exact ⟨_, _, rfl⟩
  · intro r
    exact batch_indices_length n k r hk
  · exact batch_indices_flatten n k hk
  · intro hkn r _
    exact batch_indices_nonempty n k r hk hkn
  · intro r _
    exact batch_indices_nonempty 100 16 r (by decide) (by decide)
  · decide
  · decide

/-- Witness for C2 at the 32-row, 2-worker scenario of the tests. -/
theorem c2_batch_sharding_balanced_witness : 0 < 2 ∧ C2Body 32 2 :=
  ⟨by decide, c2_batch_sharding_balanced 32 2 (by decide)⟩

/-! ## Claim C1: concatenating the ranks' payloads reconstructs the dataset -/

/-- A concrete distributed matrix over three single-row file partitions, used
to exhibit the round-robin interleaving. -/
def c1_matrix_3parts : RayDMatrix :=
  { source := .fileList [[[0]], [[1]], [[2]]]
    label := [0, 1, 2]
    sharding := .BATCH
    distributed := true
    weight := none
    base_margin := none
    qid := none
    label_lower_bound := none
    label_upper_bound := none
    feature_weights := none }

/-- Claim C1, counterexample.  For a distributed source with 3 partitions and
2 workers (2 ≤ partition count), rank 0 receives partitions 0 and 2 and
rank 1 partition 1, so the rank-ordered concatenation is `[[0],[2],[1]]` — a
permutation of the original rows but not equal to them row-for-row. -/
theorem c1_counterexample :
    2 ≤ num_partitions c1_matrix_3parts.source ∧
    c1_matrix_3parts.aux_aligned = true ∧
    concat_dataframes ((List.range 2).map fun r => (c1_matrix_3parts.materialize r 2).data)
      ≠ source_rows c1_matrix_3parts.source ∧
    (concat_dataframes ((List.range 2).map fun r =>
      (c1_matrix_3parts.materialize r 2).data)).Perm (source_rows c1_matrix_3parts.source) := by
  refine ⟨by decide, by decide, by decide, by decide⟩

/-- The amended claim C1 as one proposition over a logical matrix `m`:
materialization is exactly `get_data`; in centralized batch mode the
rank-ordered concatenation of the payloads of ranks `0..N-1` equals the
original features and labels row-for-row for every worker count `N ≥ 1`; in
distributed mode it is a permutation of the original rows (no row duplicated
or omitted), and is exactly row-for-row when `N` equals the partition count;
and rank 0 of 1 worker reproduces the original data and labels exactly. -/
def C1Body (m : RayDMatrix) : Prop :=
  (∀ rank N : Nat, m.get_data rank N = .ok (m.materialize rank N)) ∧
  (m.distributed = false → m.sharding = RayShardingMode.BATCH → ∀ N, 0 < N →
    concat_dataframes ((List.range N).map fun r => (m.materialize r N).data)
      = source_rows m.source ∧
    concat_dataframes ((List.range N).map fun r => (m.materialize r N).label)
      = m.label) ∧
  (m.distributed = true → ∀ N, 0 < N →
    (concat_dataframes ((List.range N).map fun r => (m.materialize r N).data)).Perm
      (source_rows m.source) ∧
    (concat_dataframes ((List.range N).map fun r => (m.materialize r N).label)).Perm
      m.label) ∧
  (m.distributed = true →
    concat_dataframes ((List.range (num_partitions m.source)).map fun r =>
      (m.materialize r (num_partitions m.source)).data) = source_rows m.source ∧
    concat_dataframes ((List.range (num_partitions m.source)).map fun r =>
      (m.materialize r (num_partitions m.source)).label) = m.label) ∧
  ((m.materialize 0 1).data = source_rows m.source ∧
    (m.materialize 0 1).label = m.label)

/-- Claim C1 (amended): for every logical matrix without a group identifier
and with aligned label/auxiliary arrays — over every supported source type —
concatenating the materialized payloads of ranks `0..N-1` in rank order
reconstructs the original dataset with no row duplicated or omitted: exactly
row-for-row in centralized batch mode (any `N ≥ 1`) and in distributed mode
when `N` equals the partition count; as a rank-ordered permutation in
distributed mode generally (round-robin interleaves partitions); and
materializing for rank 0 of 1 worker reproduces the original feature and
label data exactly. -/
theorem c1_concat_reconstructs (m : RayDMatrix) (hq : m.qid = none)
    (haux : m.aux_aligned = true) : C1Body m := by
  have hlab : m.label.length = m.num_rows := aux_aligned_label m haux
  refine ⟨?_, ?_, ?_, ?_, ?_, ?_⟩
  · intro rank N
    simp [RayDMatrix.get_data, haux]
  · intro hd hs N hN
    exact ⟨materialize_data_concat_central m hq hd hs N hN,
      materialize_label_concat_central m hq hlab hd hs N hN⟩
  · intro hd N hN
    exact ⟨materialize_data_concat_dist_perm m hq hd N hN,
      materialize_label_concat_dist_perm m hq hlab hd N hN⟩
  · intro hd
    exact ⟨materialize_data_concat_dist_exact m hq hd,
      materialize_label_concat_dist_exact m hq hlab hd⟩
  · exact materialize_one_data m hq
  · exact materialize_one_label m hq hlab

/-- A concrete centralized matrix over the test fixture's 4-row array. -/
def c1_matrix_array : RayDMatrix :=
  { source := .array [[1, 0, 0, 0], [0, 1, 0, 0], [0, 0, 1, 1], [0, 0, 1, 0]]
    label := [0, 1, 2, 3]
    sharding := .BATCH
    distributed := false
    weight := none
    base_margin := none
    qid := none
    label_lower_bound := none
    label_upper_bound := none
    feature_weights := none }

/-- Witness for C1 at the centralized 4-row array matrix. -/
theorem c1_concat_reconstructs_witness :
    c1_matrix_array.qid = none ∧ c1_matrix_array.aux_aligned = true ∧
      C1Body c1_matrix_array :=
  ⟨rfl, by decide, c1_concat_reconstructs c1_matrix_array rfl (by decide)⟩

/-! ## Claim C7: unload and reload -/

theorem mapM_ok_eq (l : List γ) (f : γ → δ) :
    (l.mapM fun r => (Except.ok (f r) : Except MatrixError δ)) = Except.ok (l.map f) := by
  induction l with
  | nil => rfl
  | cons x xs ih =>
    rw [List.mapM_cons, ih]
    rfl

theorem get_data_cached_empty (m : RayDMatrix) (rank N : Nat) :
    m.get_data_cached [] rank N
      = match m.get_data rank N with
        | .error e => .error e
        | .ok p => .ok (p, [(rank, p)]) := by
  unfold RayDMatrix.get_data_cached
  rfl

theorem load_ranks_with_unloads_eq_mapM (m : RayDMatrix) (num_actors : Nat) :
    ∀ (ranks : List Nat) (cache : DataCache),
      load_ranks_with_unloads m num_actors ranks cache
        = ranks.mapM fun r => m.get_data r num_actors := by
  intro ranks
  induction ranks with
  | nil => intro cache; rfl
  | cons r rest ih =>
    intro cache
    rw [List.mapM_cons]
    unfold load_ranks_with_unloads
    rw [show unload_data cache = [] from rfl, get_data_cached_empty]
    cases hr : m.get_data r num_actors with
    | error e => rfl
    | ok p =>
      dsimp only
      rw [ih ((r, p) :: [])]
      cases hrest : rest.mapM fun x => m.get_data x num_actors with
      | error e => rfl
      | ok ps => rfl

/-- The claim C7 as one proposition over a logical matrix `m`: a first access
that loads a payload, followed by an unload, reloads the identical payload on
the next access; interleaving unloads between rank accesses leaves every
rank's payload equal to a direct load; and the unload-interleaved access
pattern of the tests still reconstructs the original dataset on
concatenation. -/
def C7Body (m : RayDMatrix) : Prop :=
  (∀ rank N p c₁, m.get_data_cached [] rank N = .ok (p, c₁) →
    m.get_data_cached (unload_data c₁) rank N = .ok (p, [(rank, p)])) ∧
  (∀ num_actors ranks cache,
    load_ranks_with_unloads m num_actors ranks cache
      = ranks.mapM fun r => m.get_data r num_actors) ∧
  (m.qid = none → m.aux_aligned = true → m.distributed = false →
    m.sharding = RayShardingMode.BATCH → ∀ N, 0 < N → ∀ ps,
      load_ranks_with_unloads m N (List.range N) [] = .ok ps →
      concat_dataframes (ps.map RayParams.data) = source_rows m.source)

/-- Claim C7: explicitly unloading the cached payload and accessing the data
again reloads from source and reproduces a payload identical to the one
obtained before unloading, so concatenation across ranks after interleaved
unloads still reconstructs the original dataset. -/
theorem c7_unload_reload_idempotent (m : RayDMatrix) : C7Body m := by
  refine ⟨?_, ?_, ?_⟩
  · intro rank N p c₁ h
    rw [get_data_cached_empty] at h
    cases hr : m.get_data rank N with
    | error e =>
      rw [hr] at h
      exact absurd h (by simp)
    | ok p' =>
      rw [hr] at h
      have hp : p' = p ∧ [(rank, p')] = c₁ := by
        have := Except.ok.inj h
        exact ⟨congrArg Prod.fst this, congrArg Prod.snd this⟩
      rw [show unload_data c₁ = [] from rfl, get_data_cached_empty, hr, hp.1]
  · exact load_ranks_with_unloads_eq_mapM m
  · intro hq haux hd hs N hN ps hps
    rw [load_ranks_with_unloads_eq_mapM] at hps
    have hfun : (fun r => m.get_data r N)
        = fun r => (Except.ok (m.materialize r N) : Except MatrixError RayParams) := by
      funext r
      simp [RayDMatrix.get_data, haux]
    rw [hfun, mapM_ok_eq] at hps
    have hps' : ps = (List.range N).map fun r => m.materialize r N :=
      (Except.ok.inj hps).symm
    rw [hps', List.map_map]
    exact materialize_data_concat_central m hq hd hs N hN

/-- A concrete centralized matrix for the C7 witness. -/
def c7_matrix : RayDMatrix :=
  { source := .dataframe [[1, 0], [0, 1], [2, 0], [0, 2]]
    label := [0, 1, 2, 3]
    sharding := .BATCH
    distributed := false
    weight := none
    base_margin := none
    qid := none
    label_lower_bound := none
    label_upper_bound := none
    feature_weights := none }

/-- Witness for C7: at a concrete 4-row centralized matrix, the first access
of rank 0 of 2 loads and caches a payload, unloading and re-accessing yields
the identical payload, and the unload-interleaved loads of ranks 0 and 1
concatenate back to the original rows. -/
theorem c7_unload_reload_idempotent_witness :
    (c7_matrix.get_data_cached [] 0 2
      = .ok (c7_matrix.materialize 0 2, [(0, c7_matrix.materialize 0 2)])) ∧
    (c7_matrix.get_data_cached (unload_data [(0, c7_matrix.materialize 0 2)]) 0 2
      = .ok (c7_matrix.materialize 0 2, [(0, c7_matrix.materialize 0 2)])) ∧
    concat_dataframes (([c7_matrix.materialize 0 2,
      c7_matrix.materialize 1 2]).map RayParams.data) = source_rows c7_matrix.source := by
  refine ⟨by decide, ?_, ?_⟩
  · exact (c7_unload_reload_idempotent c7_matrix).1 0 2 (c7_matrix.materialize 0 2)
      [(0, c7_matrix.materialize 0 2)] (by decide)
  · exact (c7_unload_reload_idempotent c7_matrix).2.2 rfl (by decide) rfl rfl 2 (by decide)
      [c7_matrix.materialize 0 2, c7_matrix.materialize 1 2] (by decide)

/-! ## Claim C3: column order preserved under exclusion -/

theorem map_fst_filter (excluded : List String) :
    ∀ cols : List (String × List Int),
      (cols.filter fun c => !(excluded.contains c.1)).map Prod.fst
        = (cols.map Prod.fst).filter fun name => !(excluded.contains name) := by
  intro cols
  induction cols with
  | nil => rfl
  | cons c rest ih =>
    rw [List.map_cons, List.filter_cons, List.filter_cons]
    by_cases h : (!excluded.contains c.1) = true
    · rw [if_pos h, if_pos h, List.map_cons, ih]
    · rw [if_neg h, if_neg h, ih]

/-- Claim C3: after excluding the label (and other auxiliary) columns from a
dataframe source, the remaining feature columns retain exactly the original
relative column order with only the excluded columns removed — the result is
a sublist of the original columns (order preserved), contains exactly the
non-excluded columns, and this holds also when an excluded column is not at
the trailing position (concrete instance: excluding the second of four
columns keeps the other three in order). -/
theorem c3_column_order_preserved :
    (∀ (df : DataFrame) (excluded : List String),
      (df.exclude_cols excluded).cols.Sublist df.cols ∧
      (∀ c, c ∈ (df.exclude_cols excluded).cols ↔
        c ∈ df.cols ∧ excluded.contains c.1 = false) ∧
      (df.exclude_cols excluded).columns
        = df.columns.filter fun name => !(excluded.contains name)) ∧
    (_split_dataframe ⟨[("a", [1]), ("label", [5]), ("b", [2]), ("c", [3])]⟩
      "label").1.columns = ["a", "b", "c"] ∧
    (_split_dataframe ⟨[("a", [1]), ("label", [5]), ("b", [2]), ("c", [3])]⟩
      "label").2 = [5] := by
  refine ⟨?_, by decide, by decide⟩
  intro df excluded
  refine ⟨List.filter_sublist _, ?_, map_fst_filter excluded df.cols⟩
  intro c
  rw [DataFrame.exclude_cols, List.mem_filter]
  simp

/-! ## Claim C4: sufficiency errors -/

/-- The claim C4 as one proposition: a distributed matrix with fewer
partitions than requested workers fails `assert_enough_shards_for_actors`
with a sufficiency error and the plan-then-load pipeline returns that error
with zero loads; a centralized (non-lazy) construction with fewer rows than
the requested worker count fails with a sufficiency error at construction. -/
def C4Body : Prop :=
  (∀ (m : RayDMatrix) (k : Nat), m.distributed = true →
    num_partitions m.source < k →
    m.assert_enough_shards_for_actors k = .error .sufficiency ∧
    m.load_all k = .error .sufficiency) ∧
  (∀ (source : DataSource) (label : List Int) (sh : RayShardingMode) (k : Nat)
      (w bm q lo hi fw : Option (List Int)),
    (source_rows source).length < k →
    RayDMatrix.create source label sh (some false) (some k) false w bm q lo hi fw
      = .error .sufficiency)

/-- Claim C4: requesting more workers than the source has usable partitions
(distributed mode) or rows (centralized mode) fails with a sufficiency error
raised at planning time, before any load is attempted, and produces zero
partial loads. -/
theorem c4_sufficiency_error : C4Body := by
  constructor
  · intro m k hd hlt
    have ha : m.assert_enough_shards_for_actors k = .error .sufficiency := by
      unfold RayDMatrix.assert_enough_shards_for_actors
      rw [hd]
      simp [hlt]
    refine ⟨ha, ?_⟩
    unfold RayDMatrix.load_all
    rw [ha]
  · intro source label sh k w bm q lo hi fw hlt
    unfold RayDMatrix.create resolve_distributed
    simp [central_shortfall, hlt]

/-- Witness for C4: a single-shard distributed file list with 4 requested
actors fails the shard assertion (testTooManyActorsDistributed), and a 32-row
centralized dataframe with 34 requested actors fails at construction
(testTooManyActorsCentral). -/
theorem c4_sufficiency_error_witness :
    (RayDMatrix.create (.fileList [[[0], [1]]]) [0, 1] .BATCH (some true) (some 4) true
      none none none none none none
      = .ok ⟨.fileList [[[0], [1]]], [0, 1], .BATCH, true,
          none, none, none, none, none, none⟩) ∧
    ((⟨.fileList [[[0], [1]]], [0, 1], .BATCH, true, none, none, none, none, none,
        none⟩ : RayDMatrix).assert_enough_shards_for_actors 4 = .error .sufficiency ∧
      (⟨.fileList [[[0], [1]]], [0, 1], .BATCH, true, none, none, none, none, none,
        none⟩ : RayDMatrix).load_all 4 = .error .sufficiency) ∧
    RayDMatrix.create (.dataframe (List.replicate 32 [0])) (List.replicate 32 0)
      .BATCH (some false) (some 34) false none none none none none none
      = .error .sufficiency := by
  refine ⟨by decide, ?_, ?_⟩
  · exact c4_sufficiency_error.1
      ⟨.fileList [[[0], [1]]], [0, 1], .BATCH, true, none, none, none, none, none, none⟩
      4 rfl (by decide)
  · exact c4_sufficiency_error.2 (.dataframe (List.replicate 32 [0]))
      (List.replicate 32 0) .BATCH 34 none none none none none none (by decide)

/-! ## Claim C5: explicit distributed request on a single CSV file -/

/-- Claim C5: explicitly requesting distributed mode on a single delimited
text (CSV) file fails with a configuration error rather than being silently
downgraded, while the same file with `distributed = false` or with no
override succeeds in centralized mode. -/
theorem c5_single_csv_distributed_rejected (rows : List Row) (label : List Int)
    (sh : RayShardingMode) (w bm q lo hi fw : Option (List Int)) :
    RayDMatrix.create (.csvFile rows) label sh (some true) none false w bm q lo hi fw
      = .error .configuration ∧
    RayDMatrix.create (.csvFile rows) label sh (some false) none false w bm q lo hi fw
      = .ok ⟨.csvFile rows, label, sh, false, w, bm, q, lo, hi, fw⟩ ∧
    RayDMatrix.create (.csvFile rows) label sh none none false w bm q lo hi fw
      = .ok ⟨.csvFile rows, label, sh, false, w, bm, q, lo, hi, fw⟩ ∧
    (RayDMatrix.create (.csvFile rows) label sh none none false w bm q lo hi fw).map
      RayDMatrix.distributed = .ok false := by
  refine ⟨rfl, rfl, rfl, rfl⟩

/-! ## Claim C6: mode inference -/

/-- The claim C6 as one proposition: a single parquet file infers distributed,
a single CSV file infers centralized, a list of at least two files infers
distributed, a pre-partitioned dataset handle is always distributed, and the
constructor without an explicit override records exactly the inferred mode. -/
def C6Body (rows : List Row) (parts : List (List Row)) : Prop :=
  detect_distributed (.parquetFile rows) = true ∧
  detect_distributed (.csvFile rows) = false ∧
  detect_distributed (.fileList parts) = true ∧
  detect_distributed (.rayDataset parts) = true ∧
  (∀ (src : DataSource) (label : List Int) (sh : RayShardingMode)
      (w bm q lo hi fw : Option (List Int)),
    RayDMatrix.create src label sh none none true w bm q lo hi fw
      = .ok ⟨src, label, sh, detect_distributed src, w, bm, q, lo, hi, fw⟩)

/-- Claim C6: mode inference, when not explicitly overridden, yields
distributed for a single parquet file, centralized for a single CSV file,
distributed for a list of multiple files, and distributed for an
already-partitioned dataset handle. -/
theorem c6_mode_inference (rows : List Row) (parts : List (List Row))
    (h2 : 2 ≤ parts.length) : C6Body rows parts := by
  refine ⟨rfl, rfl, ?_, rfl, ?_⟩
  · simp [detect_distributed, h2]
  · intro src label sh w bm q lo hi fw
    unfold RayDMatrix.create resolve_distributed
    simp

/-- Witness for C6 with three file partitions (the `* 3` lists of
testDetectDistributed). -/
theorem c6_mode_inference_witness :
    2 ≤ ([[[0]], [[1]], [[2]]] : List (List Row)).length ∧
      C6Body [[7]] [[[0]], [[1]], [[2]]] :=
  ⟨by decide, c6_mode_inference [[7]] [[[0]], [[1]], [[2]]] (by decide)⟩

/-! ## Claim C8: qid sorting -/

/-- The claim C8 as one proposition over a payload `p` whose qid is `q`: one
permutation `σ` of the row positions — sorted by qid value with ties keeping
the original order (stability) — is applied identically to the features, the
labels, the qid and every present row-aligned auxiliary array, per-feature
weights are untouched, the resulting qid is in contiguous non-decreasing
runs, the result is accepted by the boosting routine's native constructor,
and no row is duplicated or omitted. -/
def C8Body (p : RayParams) (q : List Int) : Prop :=
  (∃ σ : List Nat,
    σ.Perm (List.range q.length) ∧
    σ.Pairwise (qid_key_le q) ∧
    (sort_params_by_qid p).data = gatherD p.data [] σ ∧
    (sort_params_by_qid p).label = gatherD p.label 0 σ ∧
    (sort_params_by_qid p).qid = some (gatherD q 0 σ) ∧
    (sort_params_by_qid p).weight = p.weight.map (fun w => gatherD w 0 σ) ∧
    (sort_params_by_qid p).base_margin = p.base_margin.map (fun w => gatherD w 0 σ) ∧
    (sort_params_by_qid p).label_lower_bound
      = p.label_lower_bound.map (fun w => gatherD w 0 σ) ∧
    (sort_params_by_qid p).label_upper_bound
      = p.label_upper_bound.map (fun w => gatherD w 0 σ) ∧
    (sort_params_by_qid p).feature_weights = p.feature_weights ∧
    qid_sorted (gatherD q 0 σ) = true ∧
    (p.data.length = q.length → ((sort_params_by_qid p).data).Perm p.data) ∧
    (p.label.length = q.length → ((sort_params_by_qid p).label).Perm p.label)) ∧
  dmatrix_accepts (sort_params_by_qid p) = true ∧
  (∀ (m : RayDMatrix) (rank N : Nat),
    m.materialize rank N = sort_params_by_qid (m.shard_payload rank N))

/-- Claim C8: if a group identifier (qid) is supplied whose values are not
already in sorted contiguous runs, the materialized payload has its rows
stably sorted by the group identifier into contiguous group runs, with
features, labels and every auxiliary array permuted identically, so that the
resulting parameter mapping is accepted by the boosting routine's native
matrix constructor (which rejects unsorted qid). -/
theorem c8_qid_stable_sort (p : RayParams) (q : List Int) (hq : p.qid = some q)
    (hu : qid_sorted q = false) : C8Body p q := by
  have hrw : sort_params_by_qid p =
      { data := gatherD p.data [] (qid_sort_perm q)
        label := gatherD p.label 0 (qid_sort_perm q)
        weight := p.weight.map fun w => gatherD w 0 (qid_sort_perm q)
        base_margin := p.base_margin.map fun w => gatherD w 0 (qid_sort_perm q)
        qid := some (gatherD q 0 (qid_sort_perm q))
        label_lower_bound := p.label_lower_bound.map fun w => gatherD w 0 (qid_sort_perm q)
        label_upper_bound := p.label_upper_bound.map fun w => gatherD w 0 (qid_sort_perm q)
        feature_weights := p.feature_weights } := by
    unfold sort_params_by_qid
    rw [hq]
    dsimp only
    rw [if_neg (by rw [hu]; exact Bool.false_ne_true)]
  have hsorted : qid_sorted (gatherD q 0 (qid_sort_perm q)) = true :=
    qid_sorted_gather q (qid_sort_perm q) (qid_sort_perm_pairwise q)
  refine ⟨⟨qid_sort_perm q, qid_sort_perm_perm q, qid_sort_perm_pairwise q,
    ?_, ?_, ?_, ?_, ?_, ?_, ?_, ?_, hsorted, ?_, ?_⟩, ?_, fun m rank N => rfl⟩
  · rw [hrw]
  · rw [hrw]
  · rw [hrw]
  · rw [hrw]
  · rw [hrw]
  · rw [hrw]
  · rw [hrw]
  · rw [hrw]
  · intro hlen
    rw [hrw]
    exact gatherD_perm p.data [] (hlen ▸ qid_sort_perm_perm q)
  · intro hlen
    rw [hrw]
    exact gatherD_perm p.label 0 (hlen ▸ qid_sort_perm_perm q)
  · rw [hrw]
    unfold dmatrix_accepts
    exact hsorted

/-- A concrete payload with the unsorted qid pattern of
testQidSortedBehaviorXGBoost. -/
def c8_params : RayParams :=
  { data := [[1], [2], [3], [4]]
    label := [10, 20, 30, 40]
    weight := some [1, 1, 2, 2]
    base_margin := none
    qid := some [2, 1, 2, 1]
    label_lower_bound := none
    label_upper_bound := none
    feature_weights := some [9] }

/-- Witness for C8 at a concrete unsorted-qid payload; also records that the
native constructor rejects the unsorted qid but accepts the sorted result. -/
theorem c8_qid_stable_sort_witness :
    c8_params.qid = some [2, 1, 2, 1] ∧
    qid_sorted [2, 1, 2, 1] = false ∧
    dmatrix_accepts c8_params = false ∧
    C8Body c8_params [2, 1, 2, 1] :=
  ⟨rfl, by decide, by decide, c8_qid_stable_sort c8_params [2, 1, 2, 1] rfl (by decide)⟩

/-! ## Claim C9: auxiliary array alignment -/

/-- Every present row-level auxiliary array of a payload is row-count-aligned
with the feature matrix. -/
def params_row_aligned (p : RayParams) : Prop :=
  (∀ w, p.weight = some w → w.length = p.data.length) ∧
  (∀ w, p.base_margin = some w → w.length = p.data.length) ∧
  (∀ w, p.qid = some w → w.length = p.data.length) ∧
  (∀ w, p.label_lower_bound = some w → w.length = p.data.length) ∧
  (∀ w, p.label_upper_bound = some w → w.length = p.data.length) ∧
  p.label.length = p.data.length

theorem opt_map_gather_len (o : Option (List Int)) (idx : List Nat) (w : List Int)
    (h : o.map (fun x => gatherD x 0 idx) = some w) : w.length = idx.length := by
  cases o with
  | none => exact absurd h (by simp)
  | some x =>
    simp only [Option.map_some', Option.some.injEq] at h
    rw [← h]
    exact gatherD_length x 0 idx

theorem gather_params (p : RayParams) (q : List Int) (σ : List Nat) :
    params_row_aligned
      { data := gatherD p.data [] σ
        label := gatherD p.label 0 σ
        weight := p.weight.map fun w => gatherD w 0 σ
        base_margin := p.base_margin.map fun w => gatherD w 0 σ
        qid := some (gatherD q 0 σ)
        label_lower_bound := p.label_lower_bound.map fun w => gatherD w 0 σ
        label_upper_bound := p.label_upper_bound.map fun w => gatherD w 0 σ
        feature_weights := p.feature_weights } := by
  unfold params_row_aligned
  dsimp only
  rw [gatherD_length p.data]
  refine ⟨?_, ?_, ?_, ?_, ?_, ?_⟩
  · intro w hw
    exact opt_map_gather_len p.weight _ w hw
  · intro w hw
    exact opt_map_gather_len p.base_margin _ w hw
  · intro w hw
    rw [← Option.some.inj hw]
    exact gatherD_length q 0 _
  · intro w hw
    exact opt_map_gather_len p.label_lower_bound _ w hw
  · intro w hw
    exact opt_map_gather_len p.label_upper_bound _ w hw
  · exact gatherD_length p.label 0 _

theorem shard_payload_row_aligned (m : RayDMatrix) (rank N : Nat) :
    params_row_aligned (m.shard_payload rank N) := by
  refine ⟨?_, ?_, ?_, ?_, ?_, ?_⟩
  · intro w hw
    rw [shard_payload_data, gatherD_length]
    exact opt_map_gather_len m.weight _ w hw
  · intro w hw
    rw [shard_payload_data, gatherD_length]
    exact opt_map_gather_len m.base_margin _ w hw
  · intro w hw
    rw [shard_payload_data, gatherD_length]
    exact opt_map_gather_len m.qid _ w hw
  · intro w hw
    rw [shard_payload_data, gatherD_length]
    exact opt_map_gather_len m.label_lower_bound _ w hw
  · intro w hw
    rw [shard_payload_data, gatherD_length]
    exact opt_map_gather_len m.label_upper_bound _ w hw
  · rw [shard_payload_data, shard_payload_label, gatherD_length, gatherD_length]

theorem sort_params_row_aligned (p : RayParams) (h : params_row_aligned p) :
    params_row_aligned (sort_params_by_qid p) := by
  unfold sort_params_by_qid
  cases hq : p.qid with
  | none => exact h
  | some q =>
    dsimp only
    by_cases hs : qid_sorted q = true
    · rw [if_pos hs]
      exact h
    · rw [if_neg hs]
      exact gather_params p q (qid_sort_perm q)

theorem sort_params_by_qid_fw (p : RayParams) :
    (sort_params_by_qid p).feature_weights = p.feature_weights := by
  unfold sort_params_by_qid
  cases p.qid with
  | none => rfl
  | some q =>
    dsimp only
    by_cases h : qid_sorted q = true
    · rw [if_pos h]
    · rw [if_neg h]

/-- The claim C9 as one proposition over a matrix and a rank: a row-count
mismatch between the label or an auxiliary array and the features surfaces as
a load error at materialization time; with aligned arrays materialization
succeeds; every present row-level auxiliary array of the materialized payload
is row-count-aligned with its feature matrix; and per-feature weights are
passed through unchanged — unaffected by row-level sharding or sorting. -/
def C9Body (m : RayDMatrix) (rank N : Nat) : Prop :=
  (m.aux_aligned = false → m.get_data rank N = .error .load) ∧
  (m.aux_aligned = true → m.get_data rank N = .ok (m.materialize rank N)) ∧
  params_row_aligned (m.materialize rank N) ∧
  (m.materialize rank N).feature_weights = m.feature_weights

/-- Claim C9: every optional row-level auxiliary array (sample weight, base
margin, qid, label bounds) must be row-count-aligned with the feature matrix
and a mismatch is surfaced as a load error at materialization time, while
per-feature weights are column-aligned and unaffected by row-level sharding
or sorting. -/
theorem c9_aux_row_alignment (m : RayDMatrix) (rank N : Nat) : C9Body m rank N := by
  refine ⟨?_, ?_, ?_, ?_⟩
  · intro h
    simp [RayDMatrix.get_data, h]
  · intro h
    simp [RayDMatrix.get_data, h]
  · exact sort_params_row_aligned _ (shard_payload_row_aligned m rank N)
  · rw [RayDMatrix.materialize, sort_params_by_qid_fw]
    rfl

/-- The exact fixture of testLegacyParams: 32 feature rows and labels with a
33-entry qid (`[0] + [1] * len(in_y - 1)` builds 33 entries, not 32). -/
def c9_matrix_mismatch : RayDMatrix :=
  { source := .array ((List.replicate 8
      [[1, 0, 0, 0], [0, 1, 0, 0], [0, 0, 1, 1], [0, 0, 1, 0]]).flatten)
    label := (List.replicate 8 [0, 1, 2, 3]).flatten
    sharding := .BATCH
    distributed := false
    weight := none
    base_margin := none
    qid := some (0 :: List.replicate 32 1)
    label_lower_bound := none
    label_upper_bound := none
    feature_weights := none }

/-- Witness for C9 at the testLegacyParams fixture: the 33-entry qid against
32 feature rows is a row-count mismatch, so materialization surfaces a load
error; the per-feature weight passthrough is also instantiated. -/
theorem c9_aux_row_alignment_witness :
    c9_matrix_mismatch.aux_aligned = false ∧
    c9_matrix_mismatch.get_data 0 1 = .error .load ∧
    (c9_matrix_mismatch.materialize 0 1).feature_weights
      = c9_matrix_mismatch.feature_weights :=
  ⟨by decide, (c9_aux_row_alignment c9_matrix_mismatch 0 1).1 (by decide),
    (c9_aux_row_alignment c9_matrix_mismatch 0 1).2.2.2⟩

/-! ## Claim C10: configuration-derived identity across serialization -/

/-- Length-prefixed wire encoding of an integer list. -/
def enc_ints (l : List Int) : List Int := (l.length : Int) :: l

/-- Decoder for `enc_ints`; returns the decoded list and the remaining
input. -/
def dec_ints : List Int → Option (List Int × List Int)
  | [] => none
  | n :: rest => some (rest.take n.toNat, rest.drop n.toNat)

theorem dec_enc_ints (l rest : List Int) :
    dec_ints (enc_ints l ++ rest) = some (l, rest) := by
  show dec_ints ((l.length : Int) :: (l ++ rest)) = some (l, rest)
  unfold dec_ints
  dsimp only
  rw [Int.toNat_natCast, List.take_left, List.drop_left]

/-- Decode a fixed count of consecutive values with the given decoder. -/
def dec_count (dec : List Int → Option (α × List Int)) :
    Nat → List Int → Option (List α × List Int)
  | 0, rest => some ([], rest)
  | k + 1, input =>
    match dec input with
    | none => none
    | some (x, rest) =>
      match dec_count dec k rest with
      | none => none
      | some (xs, rest') => some (x :: xs, rest')

/-- Length-prefixed wire encoding of a list with a given element encoder. -/
def enc_list (enc : α → List Int) (l : List α) : List Int :=
  (l.length : Int) :: l.flatMap enc

/-- Decoder for `enc_list`. -/
def dec_list (dec : List Int → Option (α × List Int)) :
    List Int → Option (List α × List Int)
  | [] => none
  | n :: rest => dec_count dec n.toNat rest

theorem dec_count_enc (dec : List Int → Option (α × List Int)) (enc : α → List Int)
    (h : ∀ x rest, dec (enc x ++ rest) = some (x, rest)) :
    ∀ (l : List α) (rest : List Int),
      dec_count dec l.length (l.flatMap enc ++ rest) = some (l, rest) := by
  intro l
  induction l with
  | nil => intro rest; rfl
  | cons x xs ih =>
    intro rest
    show dec_count dec (xs.length + 1) ((x :: xs).flatMap enc ++ rest) = _
    rw [List.flatMap_cons, List.append_assoc]
    unfold dec_count
    rw [h x (xs.flatMap enc ++ rest)]
    dsimp only
    rw [ih rest]

theorem dec_enc_list (dec : List Int → Option (α × List Int)) (enc : α → List Int)
    (h : ∀ x rest, dec (enc x ++ rest) = some (x, rest)) (l : List α) (rest : List Int) :
    dec_list dec (enc_list enc l ++ rest) = some (l, rest) := by
  show dec_list dec ((l.length : Int) :: (l.flatMap enc ++ rest)) = some (l, rest)
  unfold dec_list
  dsimp only
  rw [Int.toNat_natCast]
  exact dec_count_enc dec enc h l rest

/-- Decoder for a row list (list of integer lists). -/
def dec_rows : List Int → Option (List Row × List Int) := dec_list dec_ints

/-- Decoder for a partition list (list of row lists). -/
def dec_parts : List Int → Option (List (List Row) × List Int) := dec_list dec_rows

theorem dec_enc_rows (l : List Row) (rest : List Int) :
    dec_rows (enc_list enc_ints l ++ rest) = some (l, rest) :=
  dec_enc_list dec_ints enc_ints dec_enc_ints l rest

theorem dec_enc_parts (l : List (List Row)) (rest : List Int) :
    dec_parts (enc_list (enc_list enc_ints) l ++ rest) = some (l, rest) :=
  dec_enc_list dec_rows (enc_list enc_ints) dec_enc_rows l rest

/-- Wire encoding of an optional auxiliary array. -/
def enc_opt : Option (List Int) → List Int
  | none => [0]
  | some l => 1 :: enc_ints l

/-- Decoder for `enc_opt`. -/
def dec_opt : List Int → Option (Option (List Int) × List Int)
  | [] => none
  | t :: rest =>
    if t == 0 then some (none, rest)
    else if t == 1 then
      match dec_ints rest with
      | none => none
      | some (l, rest') => some (some l, rest')
    else none

theorem dec_enc_opt (o : Option (List Int)) (rest : List Int) :
    dec_opt (enc_opt o ++ rest) = some (o, rest) := by
  cases o with
  | none => rfl
  | some l =>
    show dec_opt ((1 : Int) :: (enc_ints l ++ rest)) = _
    unfold dec_opt
    dsimp only
    rw [if_neg (by decide), if_pos (by decide), dec_enc_ints]

theorem dec_enc_opt_nil (o : Option (List Int)) :
    dec_opt (enc_opt o) = some (o, []) := by
  have h := dec_enc_opt o []
  rwa [List.append_nil] at h

/-- Wire tag of the sharding mode. -/
def enc_sharding : RayShardingMode → Int
  | .BATCH => 0
  | .INTERLEAVED => 1

/-- Decoder for `enc_sharding`. -/
def dec_sharding : List Int → Option (RayShardingMode × List Int)
  | [] => none
  | t :: rest =>
    if t == 0 then some (.BATCH, rest)
    else if t == 1 then some (.INTERLEAVED, rest)
    else none

theorem dec_enc_sharding (sh : RayShardingMode) (rest : List Int) :
    dec_sharding (enc_sharding sh :: rest) = some (sh, rest) := by
  cases sh <;> rfl

/-- Wire tag of a boolean flag. -/
def enc_bool (b : Bool) : Int := if b then 1 else 0

/-- Decoder for `enc_bool`. -/
def dec_bool : List Int → Option (Bool × List Int)
  | [] => none
  | t :: rest =>
    if t == 0 then some (false, rest)
    else if t == 1 then some (true, rest)
    else none

theorem dec_enc_bool (b : Bool) (rest : List Int) :
    dec_bool (enc_bool b :: rest) = some (b, rest) := by
  cases b <;> rfl

/-- Wire encoding of a data source: a constructor tag followed by the rows or
partitions. -/
def enc_source : DataSource → List Int
  | .array rows => 0 :: enc_list enc_ints rows
  | .dataframe rows => 1 :: enc_list enc_ints rows
  | .distDataframe parts => 2 :: enc_list (enc_list enc_ints) parts
  | .csvFile rows => 3 :: enc_list enc_ints rows
  | .parquetFile rows => 4 :: enc_list enc_ints rows
  | .fileList parts => 5 :: enc_list (enc_list enc_ints) parts
  | .rayDataset parts => 6 :: enc_list (enc_list enc_ints) parts

/-- Decoder for `enc_source`. -/
def dec_source : List Int → Option (DataSource × List Int)
  | [] => none
  | t :: rest =>
    if t == 0 then (dec_rows rest).map fun pr => (.array pr.1, pr.2)
    else if t == 1 then (dec_rows rest).map fun pr => (.dataframe pr.1, pr.2)
    else if t == 2 then (dec_parts rest).map fun pr => (.distDataframe pr.1, pr.2)
    else if t == 3 then (dec_rows rest).map fun pr => (.csvFile pr.1, pr.2)
    else if t == 4 then (dec_rows rest).map fun pr => (.parquetFile pr.1, pr.2)
    else if t == 5 then (dec_parts rest).map fun pr => (.fileList pr.1, pr.2)
    else if t == 6 then (dec_parts rest).map fun pr => (.rayDataset pr.1, pr.2)
    else none

theorem dec_enc_source (s : DataSource) (rest : List Int) :
    dec_source (enc_source s ++ rest) = some (s, rest) := by
  cases s with
  | array rows =>
    show dec_source ((0 : Int) :: (enc_list enc_ints rows ++ rest)) = _
    unfold dec_source
    dsimp only
    rw [if_pos (by decide), dec_enc_rows]
    rfl
  | dataframe rows =>
    show dec_source ((1 : Int) :: (enc_list enc_ints rows ++ rest)) = _
    unfold dec_source
    dsimp only
    rw [if_neg (by decide), if_pos (by decide), dec_enc_rows]
    rfl
  | distDataframe parts =>
    show dec_source ((2 : Int) :: (enc_list (enc_list enc_ints) parts ++ rest)) = _
    unfold dec_source
    dsimp only
    rw [if_neg (by decide), if_neg (by decide), if_pos (by decide), dec_enc_parts]
    rfl
  | csvFile rows =>
    show dec_source ((3 : Int) :: (enc_list enc_ints rows ++ rest)) = _
    unfold dec_source
    dsimp only
    rw [if_neg (by decide), if_neg (by decide), if_neg (by decide), if_pos (by decide), dec_enc_rows]
    rfl
  | parquetFile rows =>
    show dec_source ((4 : Int) :: (enc_list enc_ints rows ++ rest)) = _
    unfold dec_source
    dsimp only
    rw [if_neg (by decide), if_neg (by decide), if_neg (by decide), if_neg (by decide), if_pos (by decide), dec_enc_rows]
    rfl
  | fileList parts =>
    show dec_source ((5 : Int) :: (enc_list (enc_list enc_ints) parts ++ rest)) = _
    unfold dec_source
    dsimp only
    rw [if_neg (by decide), if_neg (by decide), if_neg (by decide), if_neg (by decide), if_neg (by decide), if_pos (by decide), dec_enc_parts]
    rfl
  | rayDataset parts =>
    show dec_source ((6 : Int) :: (enc_list (enc_list enc_ints) parts ++ rest)) = _
    unfold dec_source
    dsimp only
    rw [if_neg (by decide), if_neg (by decide), if_neg (by decide), if_neg (by decide), if_neg (by decide), if_neg (by decide), if_pos (by decide), dec_enc_parts]
    rfl

/-- Modelled from the spec: the explicit, serializable identity of a logical
matrix — the full configuration flattened to a wire form, as happens when a
`RayDMatrix` is passed into a remote task. -/
def serialize (m : RayDMatrix) : List Int :=
  enc_source m.source ++ (enc_sharding m.sharding :: enc_bool m.distributed ::
    (enc_ints m.label ++ (enc_opt m.weight ++ (enc_opt m.base_margin ++
      (enc_opt m.qid ++ (enc_opt m.label_lower_bound ++
        (enc_opt m.label_upper_bound ++ enc_opt m.feature_weights)))))))

/-- Decoder for `serialize`: rebuilds the logical matrix from its wire
form. -/
def deserialize (w : List Int) : Option RayDMatrix :=
  (dec_source w).bind fun pr₀ =>
  (dec_sharding pr₀.2).bind fun pr₁ =>
  (dec_bool pr₁.2).bind fun pr₂ =>
  (dec_ints pr₂.2).bind fun pr₃ =>
  (dec_opt pr₃.2).bind fun pr₄ =>
  (dec_opt pr₄.2).bind fun pr₅ =>
  (dec_opt pr₅.2).bind fun pr₆ =>
  (dec_opt pr₆.2).bind fun pr₇ =>
  (dec_opt pr₇.2).bind fun pr₈ =>
  (dec_opt pr₈.2).map fun pr₉ =>
  ⟨pr₀.1, pr₃.1, pr₁.1, pr₂.1, pr₄.1, pr₅.1, pr₆.1, pr₇.1, pr₈.1, pr₉.1⟩

theorem deserialize_serialize (m : RayDMatrix) : deserialize (serialize m) = some m := by
  obtain ⟨src, label, sh, dist, wt, bm, q, lo, hi, fw⟩ := m
  unfold serialize deserialize
  dsimp only
  rw [dec_enc_source]
  simp only [Option.some_bind]
  rw [dec_enc_sharding]
  simp only [Option.some_bind]
  rw [dec_enc_bool]
  simp only [Option.some_bind]
  rw [dec_enc_ints]
  simp only [Option.some_bind]
  rw [dec_enc_opt]
  simp only [Option.some_bind]
  rw [dec_enc_opt]
  simp only [Option.some_bind]
  rw [dec_enc_opt]
  simp only [Option.some_bind]
  rw [dec_enc_opt]
  simp only [Option.some_bind]
  rw [dec_enc_opt]
  simp only [Option.some_bind]
  rw [dec_enc_opt_nil]
  rfl

/-- Modelled from the spec: equality of logical matrices as an explicit,
configuration-derived identity (structural equality of the recorded
configuration, never a runtime pointer). -/
def matrix_eq (a b : RayDMatrix) : Bool := decide (a = b)

/-- The remote-task comparison of the tests (`testSameObject`): both
arguments arrive serialized, are deserialized in the task, and compared. -/
def remote_same (w₁ w₂ : List Int) : Option Bool :=
  (deserialize w₁).bind fun a => (deserialize w₂).map fun b => matrix_eq a b

/-- Claim C10: equality of a logical matrix is well-defined across process
boundaries — a matrix compared with itself after both references are
serialized into a remote task compares equal, because equality is derived
from the configuration (serialization round-trips, equality holds exactly on
equal configurations, and the wire form determines the matrix). -/
theorem c10_identity_across_serialization (m a b : RayDMatrix) :
    deserialize (serialize m) = some m ∧
    remote_same (serialize m) (serialize m) = some true ∧
    (matrix_eq a b = true ↔ a = b) ∧
    (serialize a = serialize b → a = b) := by
  refine ⟨deserialize_serialize m, ?_, ?_, ?_⟩
  · unfold remote_same
    rw [deserialize_serialize]
    simp only [Option.some_bind, Option.map_some']
    unfold matrix_eq
    simp
  · unfold matrix_eq
    exact decide_eq_true_iff
  · intro h
    have h1 := deserialize_serialize a
    rw [h, deserialize_serialize b] at h1
    exact (Option.some.inj h1).symm

/-- A concrete matrix for the C10 witness. -/
def c10_matrix : RayDMatrix :=
  { source := .parquetFile [[1, 2], [3, 4]]
    label := [0, 1]
    sharding := .BATCH
    distributed := true
    weight := some [1, 1]
    base_margin := none
    qid := none
    label_lower_bound := none
    label_upper_bound := none
    feature_weights := none }

/-- Witness for C10 at a concrete matrix: the remote-task self-comparison
returns true and the round trip reproduces the configuration; a matrix with a
different configuration compares unequal. -/
theorem c10_identity_across_serialization_witness :
    remote_same (serialize c10_matrix) (serialize c10_matrix) = some true ∧
    deserialize (serialize c10_matrix) = some c10_matrix ∧
    matrix_eq c10_matrix c1_matrix_3parts = false :=
  ⟨(c10_identity_across_serialization c10_matrix c10_matrix c10_matrix).2.1,
    (c10_identity_across_serialization c10_matrix c10_matrix c10_matrix).1,
    by decide⟩
